import Mathlib

/-
Verification of the persistence layer of the `controle` repository
(src/storage-manager.js): the StorageManager class, its IndexedDB and
localStorage backends, the one-shot migration, and the enhancedStorage
wrapper.

Modelling conventions:
* The mutable instance state of StorageManager is threaded explicitly as a
  value of type `SMState`.
* Host/browser facilities are an explicit environment `Env`:
  availability of `window.indexedDB`, the outcome of `indexedDB.open`,
  `Date.now()`, and how `JSON.parse` behaves on strings not produced by this
  layer.
* Promise outcomes are `Async`: a promise either resolves (`ok`), rejects
  (`err`), or never settles (`pending`).  `pending` is essential: awaiting a
  promise that never settles is neither success nor an exception, and the
  source contains such a situation (init awaiting its own initPromise
  through the migration path).
* Host JSON serialization: `localStorage` cells hold strings.  A cell whose
  string was produced as `JSON.stringify v` for a defined JSON value `v` is
  represented as `RawVal.enc v`; any other string content is
  `RawVal.foreign s`.  This bakes in the two ECMA-262 host guarantees the
  code relies on: `JSON.parse (JSON.stringify v)` is deep-equal to `v`, and
  `JSON.stringify v` is a non-empty (hence truthy) string for every defined
  JSON value (minimal outputs are "null", "false", "0", a quoted string).
  Floating point numbers are modelled as integers; nothing in the layer
  inspects numeric values.
* Backend failures (request.onerror, localStorage throwing) are injected per
  call as an `Option JsErr` fault argument; `none` means the host operation
  succeeds.
-/

namespace Controle

/-- A JSON-serializable value, as passed to and produced by the layer.
JS numbers are modelled as integers (the layer treats values opaquely). -/
inductive Json : Type where
  | null : Json
  | bool (b : Bool) : Json
  | num (n : Int) : Json
  | str (s : String) : Json
  | arr (elems : List Json) : Json
  | obj (fields : List (String × Json)) : Json

/-- JS truthiness of a JSON value: null, false, 0 and the empty string are
falsy; arrays and objects are always truthy. -/
def Json.truthy : Json → Bool
  | Json.null => false
  | Json.bool b => b
  | Json.num n => decide (n ≠ 0)
  | Json.str s => decide (s ≠ "")
  | Json.arr _ => true
  | Json.obj _ => true

/-- A raw backend-specific error as the host delivers it: the content of
request.error on an IndexedDB request, or the exception thrown by
localStorage / JSON.parse (identified by its DOMException/Error name). -/
inductive JsErr : Type where
  | domError (name : String) : JsErr
  | parseError : JsErr
deriving DecidableEq

/-- Content of one localStorage cell (a string).  `enc v` is the string
produced by the host call JSON.stringify v; `foreign s` is any string not
written through this layer. -/
inductive RawVal : Type where
  | enc (v : Json) : RawVal
  | foreign (s : String) : RawVal

/-- JS truthiness of the cell string.  Host fact: JSON.stringify of a
defined value is never the empty string, so `enc v` is always truthy. -/
def RawVal.truthy : RawVal → Bool
  | RawVal.enc _ => true
  | RawVal.foreign s => decide (s ≠ "")

/-- Outcome of a JS promise: resolved, rejected, or never settling. -/
inductive Async (α : Type) : Type where
  | ok (a : α) : Async α
  | err (e : JsErr) : Async α
  | pending : Async α
deriving DecidableEq

/-- Host environment: what the browser supplies to the layer. -/
structure Env : Type where
  /-- whether window.indexedDB exists -/
  indexedDBAvailable : Bool
  /-- outcome of the indexedDB.open request issued by openDatabase -/
  openOutcome : Except JsErr Unit
  /-- Date.now() at the current call -/
  now : Nat
  /-- behaviour of host JSON.parse on a string not written by this layer -/
  foreignParse : String → Except JsErr Json

/-- Host JSON.parse applied to the content of a localStorage cell.  Parsing
a stringify output recovers the original value (ECMA-262 round-trip). -/
def rawParse (env : Env) : RawVal → Except JsErr Json
  | RawVal.enc v => Except.ok v
  | RawVal.foreign s => env.foreignParse s

/-- Association-list lookup (first match), modelling keyed lookup both in
the IndexedDB object store (keyPath 'key') and in localStorage. -/
def alGet {α : Type} : List (String × α) → String → Option α
  | [], _ => none
  | (k1, a) :: rest, k => if k1 = k then some a else alGet rest k

/-- Association-list upsert: a write replaces the prior entry for the key. -/
def alSet {α : Type} (l : List (String × α)) (k : String) (a : α) :
    List (String × α) :=
  (k, a) :: l.filter (fun p => decide (p.1 ≠ k))

/-- Association-list delete. -/
def alRemove {α : Type} (l : List (String × α)) (k : String) :
    List (String × α) :=
  l.filter (fun p => decide (p.1 ≠ k))

/-- The mutable state of one StorageManager instance together with the two
underlying stores.  `idb` is the content of the 'collections' object store:
records {key, value, timestamp} keyed by 'key' (modelled as key ↦ (value,
timestamp)).  `ls` is the origin's localStorage (key ↦ cell string).
`openAttempts` counts calls to openDatabase (i.e. indexedDB.open), for the
memoized-initialization claim. -/
structure SMState : Type where
  /-- this.db is non-null (openDatabase succeeded) -/
  dbOpen : Bool
  /-- this.isIndexedDBAvailable -/
  isIndexedDBAvailable : Bool
  /-- content of the IndexedDB object store -/
  idb : List (String × Json × Nat)
  /-- content of localStorage -/
  ls : List (String × RawVal)
  /-- number of indexedDB.open attempts so far -/
  openAttempts : Nat

/-- storage-manager.js lines 112-128, setItemIndexedDB: a readwrite
transaction puts the record {key, value, timestamp: Date.now()}; the
promise resolves on request.onsuccess with undefined and rejects with the
raw request.error on request.onerror (modelled by the fault argument). -/
def setItemIndexedDB (env : Env) (fault : Option JsErr) (st : SMState)
    (k : String) (v : Json) : Async Unit × SMState :=
  match fault with
  | some e => (Async.err e, st)
  | none => (Async.ok (), { st with idb := alSet st.idb k (v, env.now) })

/-- storage-manager.js lines 130-142, getItemIndexedDB: a readonly
transaction gets the record for the key; on success it resolves with
`result ? result.value : null` — the record object is truthy whenever the
key is present, and an absent key yields null; on request.onerror it
rejects with the raw request.error. -/
def getItemIndexedDB (fault : Option JsErr) (st : SMState) (k : String) :
    Async Json × SMState :=
  match fault with
  | some e => (Async.err e, st)
  | none =>
      match alGet st.idb k with
      | some r => (Async.ok r.1, st)
      | none => (Async.ok Json.null, st)

/-- storage-manager.js lines 144-153, removeItemIndexedDB. -/
def removeItemIndexedDB (fault : Option JsErr) (st : SMState) (k : String) :
    Async Unit × SMState :=
  match fault with
  | some e => (Async.err e, st)
  | none => (Async.ok (), { st with idb := alRemove st.idb k })

/-- storage-manager.js lines 155-164, clearIndexedDB: store.clear() empties
the object store. -/
def clearIndexedDB (fault : Option JsErr) (st : SMState) :
    Async Unit × SMState :=
  match fault with
  | some e => (Async.err e, st)
  | none => (Async.ok (), { st with idb := [] })

/-- storage-manager.js lines 167-174, setItemLocalStorage:
localStorage.setItem(key, JSON.stringify(value)); resolves with undefined,
or rejects with the raw thrown error (quota, storage disabled).  Note: no
timestamp is attached on this path, and the stored string does not depend
on Date.now(). -/
def setItemLocalStorage (fault : Option JsErr) (st : SMState)
    (k : String) (v : Json) : Async Unit × SMState :=
  match fault with
  | some e => (Async.err e, st)
  | none => (Async.ok (), { st with ls := alSet st.ls k (RawVal.enc v) })

/-- storage-manager.js lines 176-183, getItemLocalStorage: reads the raw
string; resolves `item ? JSON.parse(item) : null` (absent key or empty
string yield null); a throwing host read (fault) or a JSON.parse failure
rejects with the raw error. -/
def getItemLocalStorage (env : Env) (fault : Option JsErr) (st : SMState)
    (k : String) : Async Json × SMState :=
  match fault with
  | some e => (Async.err e, st)
  | none =>
      match alGet st.ls k with
      | none => (Async.ok Json.null, st)
      | some raw =>
          if raw.truthy then
            match rawParse env raw with
            | Except.ok v => (Async.ok v, st)
            | Except.error e => (Async.err e, st)
          else (Async.ok Json.null, st)

/-- storage-manager.js lines 185-192, removeItemLocalStorage. -/
def removeItemLocalStorage (fault : Option JsErr) (st : SMState)
    (k : String) : Async Unit × SMState :=
  match fault with
  | some e => (Async.err e, st)
  | none => (Async.ok (), { st with ls := alRemove st.ls k })

/-- storage-manager.js lines 194-201, clearLocalStorage: localStorage.clear()
empties the whole origin-wide localStorage, not only entries written
through the layer. -/
def clearLocalStorage (fault : Option JsErr) (st : SMState) :
    Async Unit × SMState :=
  match fault with
  | some e => (Async.err e, st)
  | none => (Async.ok (), { st with ls := [] })

/-- storage-manager.js lines 71-79, the public setItem: awaits
this.initPromise (whose settled-or-pending outcome is the `i` argument),
then dispatches on isIndexedDBAvailable.  Awaiting a pending promise keeps
the call pending; awaiting a rejected one rethrows its error. -/
def setItem (i : Async Unit) (env : Env) (fault : Option JsErr)
    (st : SMState) (k : String) (v : Json) : Async Unit × SMState :=
  match i with
  | Async.pending => (Async.pending, st)
  | Async.err e => (Async.err e, st)
  | Async.ok _ =>
      if st.isIndexedDBAvailable then setItemIndexedDB env fault st k v
      else setItemLocalStorage fault st k v

/-- storage-manager.js lines 81-89, the public getItem. -/
def getItem (i : Async Unit) (env : Env) (fault : Option JsErr)
    (st : SMState) (k : String) : Async Json × SMState :=
  match i with
  | Async.pending => (Async.pending, st)
  | Async.err e => (Async.err e, st)
  | Async.ok _ =>
      if st.isIndexedDBAvailable then getItemIndexedDB fault st k
      else getItemLocalStorage env fault st k

/-- storage-manager.js lines 91-99, the public removeItem. -/
def removeItem (i : Async Unit) (env : Env) (fault : Option JsErr)
    (st : SMState) (k : String) : Async Unit × SMState :=
  match i with
  | Async.pending => (Async.pending, st)
  | Async.err e => (Async.err e, st)
  | Async.ok _ =>
      if st.isIndexedDBAvailable then removeItemIndexedDB fault st k
      else removeItemLocalStorage fault st k

/-- storage-manager.js lines 101-109, the public clear. -/
def clear (i : Async Unit) (env : Env) (fault : Option JsErr)
    (st : SMState) : Async Unit × SMState :=
  match i with
  | Async.pending => (Async.pending, st)
  | Async.err e => (Async.err e, st)
  | Async.ok _ =>
      if st.isIndexedDBAvailable then clearIndexedDB fault st
      else clearLocalStorage fault st

/-- The well-known legacy migration key. -/
def legacyKey : String := "allEquipmentCollections"

/-- storage-manager.js lines 58-69, migrateFromLocalStorage: reads the
legacy key directly from localStorage; if truthy, calls
this.setItem(legacyKey, JSON.parse(collections)) and awaits it.  Crucially,
that setItem call itself awaits this.initPromise; since migration runs
from inside init, this.initPromise is the promise of the still-running
init and is still pending — hence the inner await is passed
`Async.pending` here.  The surrounding try/catch turns any rejection into
normal completion (logged only); a pending await stays pending (a promise
that never settles is not an exception and is not caught). -/
def migrateFromLocalStorage (env : Env) (st : SMState) :
    Async Unit × SMState :=
  match alGet st.ls legacyKey with
  | none => (Async.ok (), st)
  | some raw =>
      if raw.truthy then
        match rawParse env raw with
        | Except.error _ => (Async.ok (), st)
        | Except.ok v =>
            match setItem Async.pending env none st legacyKey v with
            | (Async.ok _, st1) => (Async.ok (), st1)
            | (Async.err _, st1) => (Async.ok (), st1)
            | (Async.pending, st1) => (Async.pending, st1)
      else (Async.ok (), st)

/-- storage-manager.js lines 17-37, init: if window.indexedDB is absent,
returns at once (fallback stays selected, no open attempt).  Otherwise it
attempts openDatabase (one open attempt); on rejection the catch logs and
returns (fallback).  On success it records the open handle, marks
isIndexedDBAvailable, then awaits migrateFromLocalStorage; any rejection
is swallowed by the catch, but a pending migration keeps init pending. -/
def init (env : Env) (st : SMState) : Async Unit × SMState :=
  if env.indexedDBAvailable then
    let st1 := { st with openAttempts := st.openAttempts + 1 }
    match env.openOutcome with
    | Except.error _ => (Async.ok (), st1)
    | Except.ok _ =>
        let st2 := { st1 with dbOpen := true, isIndexedDBAvailable := true }
        match migrateFromLocalStorage env st2 with
        | (Async.ok _, st3) => (Async.ok (), st3)
        | (Async.err _, st3) => (Async.ok (), st3)
        | (Async.pending, st3) => (Async.pending, st3)
  else (Async.ok (), st)

/-- storage-manager.js lines 8-15, the constructor: fresh instance fields
(db null, isIndexedDBAvailable false, no open attempt yet) over whatever
the two persistent stores already contain, then this.initPromise =
this.init().  Returns the memoized initPromise outcome and the state. -/
def construct (env : Env) (idb0 : List (String × Json × Nat))
    (ls0 : List (String × RawVal)) : Async Unit × SMState :=
  init env { dbOpen := false, isIndexedDBAvailable := false, idb := idb0,
             ls := ls0, openAttempts := 0 }

/-- storage-manager.js lines 248-253, the localStorage branch of
exportData: for every localStorage key, data[key] =
JSON.parse(localStorage.getItem(key)); there is no truthiness guard and no
try/catch, so a cell whose string does not parse makes exportData reject
with the raw parse error. -/
def exportLS (env : Env) : List (String × RawVal) →
    Except JsErr (List (String × Json))
  | [] => Except.ok []
  | (k, raw) :: rest =>
      match rawParse env raw with
      | Except.error e => Except.error e
      | Except.ok v =>
          match exportLS env rest with
          | Except.error e => Except.error e
          | Except.ok tl => Except.ok ((k, v) :: tl)

/-- storage-manager.js lines 226-255, exportData: awaits initPromise, then
either getAll() on the object store folded into {key: value} (rejecting
with the raw request.error on failure, modelled by the fault), or the
localStorage loop. -/
def exportData (i : Async Unit) (env : Env) (fault : Option JsErr)
    (st : SMState) : Async (List (String × Json)) × SMState :=
  match i with
  | Async.pending => (Async.pending, st)
  | Async.err e => (Async.err e, st)
  | Async.ok _ =>
      if st.isIndexedDBAvailable then
        match fault with
        | some e => (Async.err e, st)
        | none => (Async.ok (st.idb.map (fun r => (r.1, r.2.1))), st)
      else
        match exportLS env st.ls with
        | Except.error e => (Async.err e, st)
        | Except.ok data => (Async.ok data, st)

/-- The loop body of importData (lines 260-262): for each [key, value] of
Object.entries(data), await this.setItem(key, value).  By the time the
loop runs, initPromise has already resolved (importData awaited it), so
each inner setItem sees a resolved initPromise.  The per-iteration fault
list supplies the host outcome of each write; a rejection aborts the loop
and propagates (importData has no try/catch). -/
def importLoop (env : Env) : List (String × Json) → List (Option JsErr) →
    SMState → Async Unit × SMState
  | [], _, st => (Async.ok (), st)
  | (k, v) :: rest, faults, st =>
      match setItem (Async.ok ()) env (faults.headD none) st k v with
      | (Async.ok _, st1) => importLoop env rest faults.tail st1
      | (Async.err e, st1) => (Async.err e, st1)
      | (Async.pending, st1) => (Async.pending, st1)

/-- storage-manager.js lines 257-263, importData: awaits initPromise, then
writes the entries one at a time, each awaited before the next. -/
def importData (i : Async Unit) (env : Env) (faults : List (Option JsErr))
    (st : SMState) (entries : List (String × Json)) :
    Async Unit × SMState :=
  match i with
  | Async.pending => (Async.pending, st)
  | Async.err e => (Async.err e, st)
  | Async.ok _ => importLoop env entries faults st

/-- storage-manager.js lines 276-279, enhancedStorage.getItem: awaits
storageManager.getItem and returns `value ? JSON.stringify(value) : null`.
`some v` models the string JSON.stringify v, `none` models null: every
falsy value (null, false, 0, empty string) collapses to null here. -/
def enhancedGetItem (i : Async Unit) (env : Env) (fault : Option JsErr)
    (st : SMState) (k : String) : Async (Option Json) × SMState :=
  match getItem i env fault st k with
  | (Async.ok v, st1) =>
      (Async.ok (if v.truthy then some v else none), st1)
  | (Async.err e, st1) => (Async.err e, st1)
  | (Async.pending, st1) => (Async.pending, st1)

/-- One public call on the shared instance, with its host fault outcome. -/
inductive PublicOp : Type where
  | put (k : String) (v : Json) (fault : Option JsErr) : PublicOp
  | get (k : String) (fault : Option JsErr) : PublicOp
  | remove (k : String) (fault : Option JsErr) : PublicOp
  | clearAll (fault : Option JsErr) : PublicOp
  | exportAll (fault : Option JsErr) : PublicOp
  | importAll (entries : List (String × Json))
      (faults : List (Option JsErr)) : PublicOp

/-- Effect of one public call on the instance state.  Every call awaits the
same memoized initPromise outcome `i` fixed at construction. -/
def runOp (i : Async Unit) (env : Env) (op : PublicOp) (st : SMState) :
    SMState :=
  match op with
  | PublicOp.put k v f => (setItem i env f st k v).2
  | PublicOp.get k f => (getItem i env f st k).2
  | PublicOp.remove k f => (removeItem i env f st k).2
  | PublicOp.clearAll f => (clear i env f st).2
  | PublicOp.exportAll f => (exportData i env f st).2
  | PublicOp.importAll entries faults => (importData i env faults st entries).2

/-- A whole sequence of public calls against the one memoized initPromise. -/
def runOps (i : Async Unit) (env : Env) (ops : List PublicOp)
    (st : SMState) : SMState :=
  ops.foldl (fun s op => runOp i env op s) st

/-- Sequential prefix of importData: the state after the first writes have
been applied one at a time (used to state partial application). -/
def applyPuts (env : Env) (entries : List (String × Json)) (st : SMState) :
    SMState :=
  entries.foldl (fun s kv => (setItem (Async.ok ()) env none s kv.1 kv.2).2) st

/-- A concrete benign environment: indexedDB present, open succeeds,
Date.now() = 7, foreign strings do not parse. -/
def env0 : Env :=
  { indexedDBAvailable := true, openOutcome := Except.ok (), now := 7,
    foreignParse := fun _ => Except.error JsErr.parseError }

/-- A concrete instance that selected the fallback backend, stores empty. -/
def stFB : SMState :=
  { dbOpen := false, isIndexedDBAvailable := false, idb := [], ls := [],
    openAttempts := 1 }

/-- A concrete instance that selected the structured backend, stores empty. -/
def stS : SMState :=
  { dbOpen := true, isIndexedDBAvailable := true, idb := [], ls := [],
    openAttempts := 1 }

/-- A fresh pre-init instance whose localStorage already holds the legacy
key with parseable content (the string JSON.stringify of an object). -/
def stLegacy : SMState :=
  { dbOpen := false, isIndexedDBAvailable := false, idb := [],
    ls := [(legacyKey, RawVal.enc (Json.obj []))], openAttempts := 0 }

/-- A fallback-selected instance whose localStorage holds a key that was
never written through the persistence layer (foreign content). -/
def stForeign : SMState :=
  { dbOpen := false, isIndexedDBAvailable := false, idb := [],
    ls := [("foreignKey", RawVal.foreign "some other page data")],
    openAttempts := 1 }

/-! Helper lemmas shared by the claim theorems. -/

@[simp]
theorem alGet_alSet {α : Type} (l : List (String × α)) (k : String) (a : α) :
    alGet (alSet l k a) k = some a := by
  simp [alGet, alSet]

theorem setItem_none_eq (env : Env) (st : SMState) (k : String) (v : Json) :
    setItem (Async.ok ()) env none st k v
      = (Async.ok (), (setItem (Async.ok ()) env none st k v).2) := by
  by_cases h : st.isIndexedDBAvailable <;>
    simp [setItem, setItemIndexedDB, setItemLocalStorage, h]

theorem setItem_some_raw (env : Env) (st : SMState) (k : String) (v : Json)
    (e : JsErr) : setItem (Async.ok ()) env (some e) st k v = (Async.err e, st) := by
  by_cases h : st.isIndexedDBAvailable <;>
    simp [setItem, setItemIndexedDB, setItemLocalStorage, h]

theorem put_get_ok (env : Env) (st : SMState) (k : String) (v : Json) :
    (setItem (Async.ok ()) env none st k v).1 = Async.ok () ∧
    (getItem (Async.ok ()) env none
        (setItem (Async.ok ()) env none st k v).2 k).1 = Async.ok v := by
  by_cases h : st.isIndexedDBAvailable
  · constructor
    · simp [setItem, setItemIndexedDB, h]
    · simp [setItem, setItemIndexedDB, getItem, getItemIndexedDB, h]
  · constructor
    · simp [setItem, setItemLocalStorage, h]
    · simp [setItem, setItemLocalStorage, getItem, getItemLocalStorage, h,
        RawVal.truthy, rawParse]

theorem setItem_frame (i : Async Unit) (env : Env) (f : Option JsErr)
    (st : SMState) (k : String) (v : Json) :
    (setItem i env f st k v).2.isIndexedDBAvailable = st.isIndexedDBAvailable ∧
    (setItem i env f st k v).2.openAttempts = st.openAttempts := by
  cases i with
  | ok a =>
      by_cases h : st.isIndexedDBAvailable <;> cases f <;>
        simp [setItem, setItemIndexedDB, setItemLocalStorage, h]
  | err e => exact ⟨rfl, rfl⟩
  | pending => exact ⟨rfl, rfl⟩

theorem removeItem_frame (i : Async Unit) (env : Env) (f : Option JsErr)
    (st : SMState) (k : String) :
    (removeItem i env f st k).2.isIndexedDBAvailable = st.isIndexedDBAvailable ∧
    (removeItem i env f st k).2.openAttempts = st.openAttempts := by
  cases i with
  | ok a =>
      by_cases h : st.isIndexedDBAvailable <;> cases f <;>
        simp [removeItem, removeItemIndexedDB, removeItemLocalStorage, h]
  | err e => exact ⟨rfl, rfl⟩
  | pending => exact ⟨rfl, rfl⟩

theorem clear_frame (i : Async Unit) (env : Env) (f : Option JsErr)
    (st : SMState) :
    (clear i env f st).2.isIndexedDBAvailable = st.isIndexedDBAvailable ∧
    (clear i env f st).2.openAttempts = st.openAttempts := by
  cases i with
  | ok a =>
      by_cases h : st.isIndexedDBAvailable <;> cases f <;>
        simp [clear, clearIndexedDB, clearLocalStorage, h]
  | err e => exact ⟨rfl, rfl⟩
  | pending => exact ⟨rfl, rfl⟩

theorem getItem_state (i : Async Unit) (env : Env) (f : Option JsErr)
    (st : SMState) (k : String) : (getItem i env f st k).2 = st := by
  cases i with
  | ok a =>
      by_cases h : st.isIndexedDBAvailable
      · cases f with
        | some e => simp [getItem, getItemIndexedDB, h]
        | none =>
            simp only [getItem, h, if_true, getItemIndexedDB]
            cases alGet st.idb k <;> simp
      · cases f with
        | some e => simp [getItem, getItemLocalStorage, h]
        | none =>
            simp only [getItem, h, getItemLocalStorage]
            cases hg : alGet st.ls k with
            | none => simp
            | some raw =>
                simp only []
                by_cases ht : raw.truthy
                · simp only [ht, if_true]
                  cases rawParse env raw <;> simp
                · simp [ht]
  | err e => rfl
  | pending => rfl

theorem exportData_state (i : Async Unit) (env : Env) (f : Option JsErr)
    (st : SMState) : (exportData i env f st).2 = st := by
  cases i with
  | ok a =>
      by_cases h : st.isIndexedDBAvailable
      · cases f <;> simp [exportData, h]
      · simp only [exportData, h]
        cases exportLS env st.ls <;> simp
  | err e => rfl
  | pending => rfl

theorem importLoop_frame (env : Env) :
    ∀ (entries : List (String × Json)) (faults : List (Option JsErr))
      (st : SMState),
    (importLoop env entries faults st).2.isIndexedDBAvailable
        = st.isIndexedDBAvailable ∧
    (importLoop env entries faults st).2.openAttempts = st.openAttempts := by
  intro entries
  induction entries with
  | nil => intro faults st; exact ⟨rfl, rfl⟩
  | cons kv rest ih =>
      intro faults st
      obtain ⟨k, v⟩ := kv
      have hf := setItem_frame (Async.ok ()) env (faults.headD none) st k v
      cases hs : setItem (Async.ok ()) env (faults.headD none) st k v with
      | mk r st1 =>
          rw [hs] at hf
          cases r with
          | ok u =>
              have h2 := ih faults.tail st1
              simp only [importLoop, hs]
              exact ⟨h2.1.trans hf.1, h2.2.trans hf.2⟩
          | err e => simp only [importLoop, hs]; exact hf
          | pending => simp only [importLoop, hs]; exact hf

theorem importData_frame (i : Async Unit) (env : Env)
    (faults : List (Option JsErr)) (st : SMState)
    (entries : List (String × Json)) :
    (importData i env faults st entries).2.isIndexedDBAvailable
        = st.isIndexedDBAvailable ∧
    (importData i env faults st entries).2.openAttempts = st.openAttempts := by
  cases i with
  | ok a => exact importLoop_frame env entries faults st
  | err e => exact ⟨rfl, rfl⟩
  | pending => exact ⟨rfl, rfl⟩

theorem runOp_frame (i : Async Unit) (env : Env) (op : PublicOp)
    (st : SMState) :
    (runOp i env op st).isIndexedDBAvailable = st.isIndexedDBAvailable ∧
    (runOp i env op st).openAttempts = st.openAttempts := by
  cases op with
  | put k v f => exact setItem_frame i env f st k v
  | get k f => simp only [runOp]; rw [getItem_state]; exact ⟨rfl, rfl⟩
  | remove k f => exact removeItem_frame i env f st k
  | clearAll f => exact clear_frame i env f st
  | exportAll f => simp only [runOp]; rw [exportData_state]; exact ⟨rfl, rfl⟩
  | importAll entries faults => exact importData_frame i env faults st entries

theorem runOps_frame (i : Async Unit) (env : Env) :
    ∀ (ops : List PublicOp) (st : SMState),
    (runOps i env ops st).isIndexedDBAvailable = st.isIndexedDBAvailable ∧
    (runOps i env ops st).openAttempts = st.openAttempts := by
  intro ops
  induction ops with
  | nil => intro st; exact ⟨rfl, rfl⟩
  | cons op rest ih =>
      intro st
      have h1 := runOp_frame i env op st
      have h2 := ih (runOp i env op st)
      have hstep : runOps i env (op :: rest) st
          = runOps i env rest (runOp i env op st) := rfl
      rw [hstep]
      exact ⟨h2.1.trans h1.1, h2.2.trans h1.2⟩

theorem migrate_state (env : Env) (st : SMState) :
    (migrateFromLocalStorage env st).2 = st := by
  unfold migrateFromLocalStorage
  cases hg : alGet st.ls legacyKey with
  | none => rfl
  | some raw =>
      by_cases ht : raw.truthy
      · cases hp : rawParse env raw with
        | error e => simp [ht, hp]
        | ok v => simp [ht, hp, setItem]
      · simp [ht]

theorem init_openAttempts (env : Env) (st : SMState) :
    (init env st).2.openAttempts ≤ st.openAttempts + 1 := by
  by_cases h : env.indexedDBAvailable
  · cases ho : env.openOutcome with
    | error e => simp [init, h, ho]
    | ok u =>
        simp only [init, h, ho, if_true]
        have hms := migrate_state env ({ st with openAttempts := st.openAttempts + 1, dbOpen := true, isIndexedDBAvailable := true })
        cases hm : migrateFromLocalStorage env ({ st with openAttempts := st.openAttempts + 1, dbOpen := true, isIndexedDBAvailable := true }) with
        | mk r st3 =>
            cases r <;> rw [hm] at hms <;> simp at hms <;> simp [hms]
  · simp [init, h]

theorem importLoop_partial (env : Env) (k : String) (v : Json)
    (post : List (String × Json)) (e : JsErr) :
    ∀ (pre : List (String × Json)) (st : SMState),
    importLoop env (pre ++ (k, v) :: post)
        (List.replicate pre.length none ++ [some e]) st
      = (Async.err e, applyPuts env pre st) := by
  intro pre
  induction pre with
  | nil =>
      intro st
      simp [importLoop, setItem_some_raw, applyPuts]
  | cons kv pre1 ih =>
      intro st
      obtain ⟨k0, v0⟩ := kv
      have h1 := setItem_none_eq env st k0 v0
      simp only [List.cons_append, List.length_cons, List.replicate_succ,
        importLoop, List.headD_cons, List.tail_cons]
      rw [h1]
      simp only [List.append_eq]
      rw [ih]
      simp [applyPuts]

/-! The claims. -/

/-- C1: for every valid non-empty string key k and every JSON-serializable
value v, under either backend selection (the dispatch on
isIndexedDBAvailable covers both the IndexedDB path and the localStorage
path), an awaited put (setItem, with the initialization promise resolved
and no backend fault) followed by get (getItem) resolves with a value
deep-equal to v. -/
theorem roundtrip_put_get (env : Env) (st : SMState) (k : String) (v : Json)
    (hk : k ≠ "") :
    (setItem (Async.ok ()) env none st k v).1 = Async.ok () ∧
    (getItem (Async.ok ()) env none
        (setItem (Async.ok ()) env none st k v).2 k).1 = Async.ok v :=
  put_get_ok env st k v

/-- Witness for C1: a concrete round trip through the fallback backend. -/
theorem roundtrip_put_get_witness :
    ("coll" : String) ≠ "" ∧
    (getItem (Async.ok ()) env0 none
        (setItem (Async.ok ()) env0 none stFB "coll" (Json.num 3)).2
        "coll").1 = Async.ok (Json.num 3) :=
  ⟨by decide,
   (roundtrip_put_get env0 stFB "coll" (Json.num 3) (by decide)).2⟩

/-- C2 counterexample: the claim says every backend-level failure is
wrapped into OpenError/WriteError/ReadError before reaching the caller and
callers never receive a raw backend-specific error.  In the code no
wrapping exists: when the IndexedDB put request fails with the raw
DOMException QuotaExceededError, the public setItem rejects with exactly
that raw backend error. -/
theorem setItem_raw_error_counterexample :
    (setItem (Async.ok ()) env0
        (some (JsErr.domError "QuotaExceededError")) stS "coll"
        Json.null).1
      = Async.err (JsErr.domError "QuotaExceededError") := rfl

/-- C2 amended: backend-level failures of put/get/remove/clear are not
wrapped at all: whatever raw error the backend produced is delivered to
the caller unchanged (identity propagation) on both backend selections. -/
theorem raw_error_propagation (e : JsErr) (env : Env) (st : SMState)
    (k : String) (v : Json) :
    (setItem (Async.ok ()) env (some e) st k v).1 = Async.err e ∧
    (getItem (Async.ok ()) env (some e) st k).1 = Async.err e ∧
    (removeItem (Async.ok ()) env (some e) st k).1 = Async.err e ∧
    (clear (Async.ok ()) env (some e) st).1 = Async.err e := by
  refine ⟨?_, ?_, ?_, ?_⟩ <;> by_cases h : st.isIndexedDBAvailable <;>
    simp [setItem, getItem, removeItem, clear, setItemIndexedDB,
      setItemLocalStorage, getItemIndexedDB, getItemLocalStorage,
      removeItemIndexedDB, removeItemLocalStorage, clearIndexedDB,
      clearLocalStorage, h]

/-- C3: the claim says initialize always resolves and migration errors
never block initialization.  The code violates this: with IndexedDB
available, the open succeeding, and the legacy key present in localStorage
with parseable content, migration calls this.setItem, which awaits
this.initPromise — the promise of the still-running init — so init never
settles: it is pending forever (neither resolved nor rejected). -/
theorem init_deadlock : (init env0 stLegacy).1 = Async.pending := rfl

/-- C4: the claim says that after initialize resolves with the Structured
selection, a structured-path get of the legacy key returns the migrated
value.  The code violates this at the very input the claim is about: with
the legacy key present and parseable, init never resolves (see the
self-await deadlock), and the migrated value is never written into the
IndexedDB store (it stays empty); only the untouched fallback copy
exists. -/
theorem migration_write_never_lands :
    (init env0 stLegacy).1 = Async.pending ∧
    (init env0 stLegacy).2.idb = [] ∧
    alGet (init env0 stLegacy).2.ls legacyKey
      = some (RawVal.enc (Json.obj [])) :=
  ⟨rfl, rfl, rfl⟩

/-- C5: initialization is memoized in the single future created at
construction: however many public calls are issued against the instance
(all of them awaiting that same single outcome, the first component of
construct), the number of backend-open attempts stays at most one. -/
theorem memoized_init_single_open (env : Env)
    (idb0 : List (String × Json × Nat)) (ls0 : List (String × RawVal))
    (ops : List PublicOp) :
    (runOps (construct env idb0 ls0).1 env ops
        (construct env idb0 ls0).2).openAttempts ≤ 1 := by
  have hframe := runOps_frame (construct env idb0 ls0).1 env ops
    (construct env idb0 ls0).2
  rw [hframe.2]
  have h := init_openAttempts env
    { dbOpen := false, isIndexedDBAvailable := false, idb := idb0, ls := ls0, openAttempts := 0 }
  simpa [construct] using h

/-- C6: the backend selection (isIndexedDBAvailable) is never changed by
any subsequent public operation — put, get, remove, clear, exportAll or
importAll — whatever the initialization outcome and whether or not the
backend call fails (the fault inside the PublicOp). -/
theorem selection_never_demoted (i : Async Unit) (env : Env)
    (op : PublicOp) (st : SMState) :
    (runOp i env op st).isIndexedDBAvailable = st.isIndexedDBAvailable :=
  (runOp_frame i env op st).1

/-- C7 counterexample: the claim says every write stores an Entry carrying
a timestamp, regardless of backend.  On the fallback (localStorage) path
the write stores only the serialized value: the resulting state is
identical for two different write times (7 versus 1000), and the cell
holds exactly the encoded value with no timestamp. -/
theorem fallback_write_has_no_timestamp :
    ((7 : Nat) ≠ 1000) ∧
    (setItem (Async.ok ()) env0 none stFB "coll" (Json.num 5)).2
      = (setItem (Async.ok ()) { env0 with now := 1000 } none stFB "coll"
          (Json.num 5)).2 ∧
    (setItem (Async.ok ()) env0 none stFB "coll" (Json.num 5)).2.ls
      = [("coll", RawVal.enc (Json.num 5))] :=
  ⟨by decide, rfl, rfl⟩

/-- C7 amended: only the structured (IndexedDB) backend stores an Entry
{key, value, timestamp = Date.now()} on a write; a fallback
(localStorage) write stores only the serialized value under the key, and
the resulting state does not depend on the write time at all. -/
theorem timestamp_structured_only (env : Env) (st : SMState) (k : String)
    (v : Json) :
    (st.isIndexedDBAvailable = true →
      alGet (setItem (Async.ok ()) env none st k v).2.idb k
        = some (v, env.now)) ∧
    (st.isIndexedDBAvailable = false →
      ∀ n : Nat,
        (setItem (Async.ok ()) { env with now := n } none st k v).2
          = (setItem (Async.ok ()) env none st k v).2 ∧
        (setItem (Async.ok ()) env none st k v).2.ls
          = alSet st.ls k (RawVal.enc v)) := by
  constructor
  · intro h
    simp [setItem, setItemIndexedDB, h]
  · intro h n
    constructor
    · simp [setItem, setItemLocalStorage, h]
    · simp [setItem, setItemLocalStorage, h]

/-- Witness for C7 amended: the structured write records Date.now() = 7;
the fallback write gives the same state at write time 1000 as at 7. -/
theorem timestamp_structured_only_witness :
    alGet (setItem (Async.ok ()) env0 none stS "coll" (Json.num 5)).2.idb
        "coll" = some (Json.num 5, 7) ∧
    (setItem (Async.ok ()) { env0 with now := 1000 } none stFB "coll"
        (Json.num 5)).2
      = (setItem (Async.ok ()) env0 none stFB "coll" (Json.num 5)).2 :=
  ⟨(timestamp_structured_only env0 stS "coll" (Json.num 5)).1 rfl,
   ((timestamp_structured_only env0 stFB "coll" (Json.num 5)).2 rfl
      1000).1⟩

/-- C8: importData writes the mapping one entry at a time, each awaited
before the next; if the write for some key fails, the operation stops
with that error and the state is exactly the sequential application of the
writes that already succeeded — no rollback, partial application. -/
theorem importData_no_rollback (env : Env) (st : SMState)
    (pre post : List (String × Json)) (k : String) (v : Json) (e : JsErr) :
    importData (Async.ok ()) env
        (List.replicate pre.length none ++ [some e]) st
        (pre ++ (k, v) :: post)
      = (Async.err e, applyPuts env pre st) :=
  importLoop_partial env k v post e pre st

/-- C9 counterexample: the claim says any stored falsy value is read back
as null at the public interface on both backend paths.  Storing false and
reading it back returns false, not null, on the fallback path and on the
structured path alike: the IndexedDB record object is truthy whenever the
key exists, and the serialized string of false is the non-empty string
"false". -/
theorem falsy_value_read_back_counterexample :
    (getItem (Async.ok ()) env0 none
        (setItem (Async.ok ()) env0 none stFB "flag" (Json.bool false)).2
        "flag").1 = Async.ok (Json.bool false) ∧
    (getItem (Async.ok ()) env0 none
        (setItem (Async.ok ()) env0 none stS "flag" (Json.bool false)).2
        "flag").1 = Async.ok (Json.bool false) ∧
    Async.ok (Json.bool false) ≠ Async.ok Json.null := by
  refine ⟨rfl, rfl, ?_⟩
  intro h
  have h2 : Json.bool false = Json.null := by injection h
  exact Json.noConfusion h2

/-- C9 amended: a stored falsy value round-trips unchanged through
StorageManager on both backend paths (for null this coincides with the
absent marker); only the enhancedStorage wrapper's getItem collapses every
falsy value to null, because it tests the truthiness of the value itself. -/
theorem falsy_only_wrapper_nullifies (env : Env) (st : SMState)
    (k : String) (v : Json) (hv : v.truthy = false) :
    (getItem (Async.ok ()) env none
        (setItem (Async.ok ()) env none st k v).2 k).1 = Async.ok v ∧
    (enhancedGetItem (Async.ok ()) env none
        (setItem (Async.ok ()) env none st k v).2 k).1
      = Async.ok none := by
  have h1 := (put_get_ok env st k v).2
  have h2 := getItem_state (Async.ok ()) env none
    ((setItem (Async.ok ()) env none st k v).2) k
  refine ⟨h1, ?_⟩
  cases hG : getItem (Async.ok ()) env none
      ((setItem (Async.ok ()) env none st k v).2) k with
  | mk r st1 =>
      rw [hG] at h1 h2
      simp only [] at h1 h2
      simp [enhancedGetItem, hG, h1, hv]

/-- Witness for C9 amended: false is falsy, and the wrapper reads it back
as null (modelled as none) even though the layer stored it. -/
theorem falsy_only_wrapper_nullifies_witness :
    (Json.bool false).truthy = false ∧
    (enhancedGetItem (Async.ok ()) env0 none
        (setItem (Async.ok ()) env0 none stFB "flagw" (Json.bool false)).2
        "flagw").1 = Async.ok none :=
  ⟨rfl,
   (falsy_only_wrapper_nullifies env0 stFB "flagw" (Json.bool false)
      rfl).2⟩

/-- C10: with the fallback backend selected, clear() runs
localStorage.clear(), emptying the entire origin-wide localStorage: after
it, no key at all is present — including keys that were never written
through the persistence layer. -/
theorem clear_fallback_wipes_all (env : Env) (st : SMState)
    (h : st.isIndexedDBAvailable = false) :
    (clear (Async.ok ()) env none st).2.ls = [] ∧
    ∀ k : String, alGet (clear (Async.ok ()) env none st).2.ls k = none := by
  have hc : (clear (Async.ok ()) env none st).2.ls = [] := by
    simp [clear, clearLocalStorage, h]
  exact ⟨hc, fun k => by rw [hc]; rfl⟩

/-- Witness for C10: a localStorage cell created by other code on the
origin (never written through the layer) is gone after clear(). -/
theorem clear_fallback_wipes_all_witness :
    stForeign.isIndexedDBAvailable = false ∧
    alGet (clear (Async.ok ()) env0 none stForeign).2.ls "foreignKey"
      = none :=
  ⟨rfl, (clear_fallback_wipes_all env0 stForeign rfl).2 "foreignKey"⟩

end Controle
